import Mathlib

/-! Verification of the manifesto-ai/bridge synchronization layer.

The development shallowly embeds the repository's core:
* the vanilla path codec (`parsePath`, `getNestedValue`, `setNestedValue`,
  `getValueByPath`, `setValueByPath`, `flattenObject`) from the vanilla
  bridge implementation, and
* the sync engine (`createBridge`) from `packages/bridge/src/create-bridge.ts`:
  push scheduling with debounce, flushing through the actuator, the
  adapter pull wiring, and the disposal life-cycle of every bridge method.

JavaScript values are modelled by the inductive `JSVal`.  Arrays carry
their elements and, separately, their non-index (expando) string
properties, which strict-mode JS happily reads and writes.  Property
reads on primitives are modelled where the result is a first-class
value: a string exposes `length` and its character indices; reads of
prototype methods (e.g. `(5)["toString"]`), whose results are functions
and hence outside any value model, yield `undefined` here.  Array
element addressing uses the numeric value of an all-digit key
(JavaScript's canonical-index rule treats keys with leading zeros as
plain string properties instead; no code path of this repository
produces such keys).  Mutation is modelled functionally; a strict-mode
`TypeError` (assigning a property to a primitive or nullish value, or to
a string) is an `Option.none` result.
-/

namespace MBridge

/-- Model of a JavaScript value.  Objects are insertion-ordered field
lists; an array carries its element list and, separately, its non-index
(expando) string properties. -/
inductive JSVal where
  | undef : JSVal
  | null : JSVal
  | bool : Bool → JSVal
  | num : Int → JSVal
  | str : String → JSVal
  | obj : List (String × JSVal) → JSVal
  | arr : List JSVal → List (String × JSVal) → JSVal

/-- Model of `value === undefined || value === null`. -/
def isNullish : JSVal → Bool
  | .undef => true
  | .null => true
  | _ => false

/-- Model of `typeof v === "object" && v !== null` (objects and arrays). -/
def isObjLike : JSVal → Bool
  | .obj _ => true
  | .arr _ _ => true
  | _ => false

/-- A primitive (non-object, non-nullish) value. -/
def isPrimValue : JSVal → Bool
  | .bool _ => true
  | .num _ => true
  | .str _ => true
  | _ => false

/-- A plain object (not an array). -/
def isObjVal : JSVal → Bool
  | .obj _ => true
  | _ => false

/-- Model of `s.startsWith(pre)`, computed on the character lists (the string
both starts and continues in the same way as JavaScript's
`String.prototype.startsWith`). -/
def strStartsWith (s pre : String) : Bool :=
  pre.toList.isPrefixOf s.toList

/-- Numeric value of an all-digit key (the regex `\d+` of the source and
JavaScript's numeric array addressing). -/
def digitsToNat (s : String) : Option Nat :=
  if s.toList ≠ [] && s.toList.all Char.isDigit then
    some (s.toList.foldl (fun n c => n * 10 + (c.toNat - 48)) 0)
  else none

/-- First-match record lookup. -/
def lookupField : List (String × JSVal) → String → Option JSVal
  | [], _ => none
  | (k, v) :: rest, key => if k = key then some v else lookupField rest key

/-- Record update: an existing key keeps its position, a new key is
appended (JavaScript property-assignment order). -/
def setField : List (String × JSVal) → String → JSVal → List (String × JSVal)
  | [], key, v => [(key, v)]
  | (k, w) :: rest, key, v =>
    if k = key then (key, v) :: rest else (k, w) :: setField rest key v

/-- Array element write, padding holes with `undefined` (JS sparse-array
reads of holes give `undefined`). -/
def listSetPad : List JSVal → Nat → JSVal → List JSVal
  | [], 0, v => [v]
  | [], Nat.succ n, v => JSVal.undef :: listSetPad [] n v
  | _ :: rest, 0, v => v :: rest
  | x :: rest, Nat.succ n, v => x :: listSetPad rest n v

/-- Property read `c[key]`.  A numeric key on an array reads an element
(a hole or out-of-range index is `undefined`), any other key reads the
array's expando properties; a string exposes `length` and its character
indices.  Nullish values and the remaining primitive reads (prototype
methods, whose results are functions and not representable as values)
yield `undefined` — see the header comment. -/
def jsIndex : JSVal → String → JSVal
  | .obj fs, key => (lookupField fs key).getD JSVal.undef
  | .arr xs props, key =>
    match digitsToNat key with
    | some i => xs.getD i JSVal.undef
    | none => (lookupField props key).getD JSVal.undef
  | .str s, key =>
    if key = "length" then JSVal.num s.length
    else
      match digitsToNat key with
      | some i =>
        if i < s.toList.length then JSVal.str (String.mk [s.toList.getD i ' '])
        else JSVal.undef
      | none => JSVal.undef
  | _, _ => JSVal.undef

/-- Property write `c[key] = v`.  `none` models the strict-mode
`TypeError` on primitive/nullish targets (string index and property
assignments also throw in strict mode); on an array, a numeric key
writes an element and any other key becomes an expando property, as in
strict-mode JS. -/
def jsSetIndex : JSVal → String → JSVal → Option JSVal
  | .obj fs, key, v => some (.obj (setField fs key v))
  | .arr xs props, key, v =>
    match digitsToNat key with
    | some i => some (.arr (listSetPad xs i v) props)
    | none => some (.arr xs (setField props key v))
  | _, _, _ => none

/-! Section: Path codec (`parsePath`, vanilla implementation lines 36-88) -/

/-- The single-quote character, written by code point to keep the state
machine readable. -/
def squote : Char := Char.ofNat 39

/-- Parser state of `parsePath`: accumulated segments, the segment being
built, whether we are inside `[...]`, and the active quote character. -/
structure ParseSt where
  result : List String
  current : String
  inBracket : Bool
  bracketQuote : Option Char

/-- One character of the `parsePath` loop (vanilla lines 44-81). -/
def parseStep (st : ParseSt) (c : Char) : ParseSt :=
  if st.inBracket then
    match st.bracketQuote with
    | some q =>
      if c = q then { st with bracketQuote := none }
      else { st with current := st.current.push c }
    | none =>
      if c = ']' then
        if st.current ≠ "" then
          { st with result := st.result ++ [st.current], current := "", inBracket := false }
        else { st with inBracket := false }
      else if c = '"' ∨ c = squote then { st with bracketQuote := some c }
      else { st with current := st.current.push c }
  else
    if c = '.' then
      if st.current ≠ "" then { st with result := st.result ++ [st.current], current := "" }
      else st
    else if c = '[' then
      if st.current ≠ "" then
        { st with result := st.result ++ [st.current], current := "", inBracket := true }
      else { st with inBracket := true }
    else { st with current := st.current.push c }

/-- Model of `parsePath` — dot and bracket notation to segments (vanilla 36-88). -/
def parsePath (path : String) : List String :=
  if path = "" then []
  else
    let st := path.toList.foldl parseStep ⟨[], "", false, none⟩
    if st.current ≠ "" then st.result ++ [st.current] else st.result

/-! Section: Nested get/set (vanilla lines 93-131) -/

/-- Model of `getNestedValue` (vanilla 93-104): per segment, a nullish current
value returns `undefined`, otherwise the walk indexes into it; the final
current value is returned as is. -/
def getNestedValue : JSVal → List String → JSVal
  | o, [] => o
  | o, seg :: rest =>
    if isNullish o then JSVal.undef else getNestedValue (jsIndex o seg) rest

/-- Intermediate-container selection of `setNestedValue` (vanilla
121-126): a nullish child is replaced by `[]` when the next segment is
all digits, by `{}` otherwise; a non-nullish child is descended into. -/
def childFor (c : JSVal) (seg nxt : String) : JSVal :=
  if isNullish (jsIndex c seg) then
    if (digitsToNat nxt).isSome then JSVal.arr [] [] else JSVal.obj []
  else jsIndex c seg

/-- Recursive core of `setNestedValue`: walk all but the last segment
creating containers on demand, then assign the last segment.  `none`
models the strict-mode `TypeError` raised when an assignment target is a
primitive. -/
def setNestedGo : JSVal → List String → JSVal → Option JSVal
  | c, [seg], v => jsSetIndex c seg v
  | c, seg :: nxt :: rest, v =>
    match setNestedGo (childFor c seg nxt) (nxt :: rest) v with
    | some child2 => jsSetIndex c seg child2
    | none => none
  | c, [], _ => some c

/-- Model of `setNestedValue` (vanilla 110-131): no-op on the empty segment list. -/
def setNestedValue (o : JSVal) (segments : List String) (v : JSVal) : Option JSVal :=
  match segments with
  | [] => some o
  | _ => setNestedGo o segments v

/-! Section: Store addressing (vanilla lines 136-174) -/

/-- The vanilla store: a `data` section and a `state` section. -/
structure VanillaStore where
  data : JSVal
  state : JSVal

/-- Model of `getValueByPath` (vanilla 136-153). -/
def getValueByPath (store : VanillaStore) (path : String) : JSVal :=
  match parsePath path with
  | [] => JSVal.undef
  | ns :: rest =>
    if ns = "data" then getNestedValue store.data rest
    else if ns = "state" then getNestedValue store.state rest
    else JSVal.undef

/-- Model of `setValueByPath` (vanilla 158-174): fewer than two segments is a
no-op, as is a namespace other than `data`/`state`. -/
def setValueByPath (store : VanillaStore) (path : String) (v : JSVal) :
    Option VanillaStore :=
  match parsePath path with
  | [] => some store
  | [_] => some store
  | ns :: rest =>
    if ns = "data" then (setNestedValue store.data rest v).map fun d => { store with data := d }
    else if ns = "state" then (setNestedValue store.state rest v).map fun st => { store with state := st }
    else some store

/-! Section: Flattening (vanilla lines 179-211) -/

/-- The entry loop of `flattenObject` (vanilla 200-208): a plain-object
field value recurses with the extended prefix, every other value (arrays,
primitives, and nested nullish values) becomes one entry.  The recursion
into the field's own fields inlines `flattenObject` at a value already
known to be a plain object. -/
def flattenFields : List (String × JSVal) → String → List (String × JSVal)
  | [], _ => []
  | (k, JSVal.obj fs2) :: rest, pre =>
    flattenFields fs2 (pre ++ "." ++ k) ++ flattenFields rest pre
  | (k, v) :: rest, pre => (pre ++ "." ++ k, v) :: flattenFields rest pre

/-- Model of `flattenObject` (vanilla 179-211): nullish input yields the empty
mapping, a primitive becomes a single entry, an array is stored whole,
and a plain object's fields are expanded. -/
def flattenObject : JSVal → String → List (String × JSVal)
  | JSVal.undef, _ => []
  | JSVal.null, _ => []
  | JSVal.obj fs, pre => flattenFields fs pre
  | JSVal.arr xs props, pre => [(pre, JSVal.arr xs props)]
  | v, pre => [(pre, v)]

/-! Section: Sync engine (`packages/bridge/src/create-bridge.ts`)

The engine is embedded in two layers.

* Pure flush logic: `partitionPaths`, `dataCalls`/`stateCalls` and
  `pushToExternal` mirror `pushToExternal` (create-bridge 155-197); an
  `ActCall` is one observable actuator invocation.
* A timed simulator (`Sim`, `runSim`) models the debounce scheduling of
  `schedulePush`/`flushPush` (create-bridge 119-150) over a timeline of
  runtime change events.  `setTimeout(debounceMs)` at time `t` arms the
  deadline `t + debounceMs`; `clearTimeout` followed by a new `setTimeout`
  is the overwrite of that deadline.  Between events, an armed deadline
  that falls due fires (the timer callback runs) before the next event is
  processed; after the last event the armed timer, if any, fires.
  The simulator models a live engine in `push`/`bidirectional` mode with
  `autoSync` enabled, as in the runtime-subscription wiring
  (create-bridge 92-110): each runtime notification hands the changed
  paths to the scheduler; the runtime's own state at that moment is the
  `rmap` carried by the event, and `runtime.get` at flush time reads the
  `rmap` current at that flush. -/

/-- Engine configuration: debounce window and which optional batched
actuator methods exist. -/
structure EngineCfg where
  debounceMs : Nat
  hasSetManyData : Bool
  hasSetManyState : Bool

/-- One observable actuator invocation. -/
inductive ActCall where
  | setData : String → JSVal → ActCall
  | setState : String → JSVal → ActCall
  | setManyData : List (String × JSVal) → ActCall
  | setManyState : List (String × JSVal) → ActCall

/-- The partition loop of `pushToExternal` (create-bridge 160-167):
`state.`-prefixed paths, then `data.`-prefixed paths; anything else
(e.g. `derived.*`) is skipped. -/
def partitionPaths : List String → List String × List String
  | [] => ([], [])
  | p :: rest =>
    let pr := partitionPaths rest
    if strStartsWith p "state." then (pr.1, p :: pr.2)
    else if strStartsWith p "data." then (p :: pr.1, pr.2)
    else pr

/-- Data-partition writes (create-bridge 170-182): the batched method
when available, else one scalar call per path; values are read from the
runtime (`g`) at call time. -/
def dataCalls (cfg : EngineCfg) (g : String → JSVal) (dps : List String) : List ActCall :=
  if dps.isEmpty then []
  else if cfg.hasSetManyData then [ActCall.setManyData (dps.map fun p => (p, g p))]
  else dps.map fun p => ActCall.setData p (g p)

/-- State-partition writes (create-bridge 184-196). -/
def stateCalls (cfg : EngineCfg) (g : String → JSVal) (sps : List String) : List ActCall :=
  if sps.isEmpty then []
  else if cfg.hasSetManyState then [ActCall.setManyState (sps.map fun p => (p, g p))]
  else sps.map fun p => ActCall.setState p (g p)

/-- Model of `pushToExternal` (create-bridge 155-197): partition, then data
writes followed by state writes. -/
def pushToExternal (cfg : EngineCfg) (g : String → JSVal) (paths : List String) :
    List ActCall :=
  let pr := partitionPaths paths
  dataCalls cfg g pr.1 ++ stateCalls cfg g pr.2

/-- Does an actuator call write the path `p`? -/
def mentionsPath (c : ActCall) (p : String) : Bool :=
  match c with
  | .setData q _ => q == p
  | .setState q _ => q == p
  | .setManyData us => us.any fun u => u.1 == p
  | .setManyState us => us.any fun u => u.1 == p

/-- Model of `pendingPaths.add` over a batch: a JS `Set` keeps insertion order and
drops duplicates (create-bridge 121-123). -/
def pathsUnion (acc : List String) (ps : List String) : List String :=
  ps.foldl (fun a p => if p ∈ a then a else a ++ [p]) acc

/-- One runtime change notification: its time, the changed paths, and the
runtime's value map from that moment on. -/
structure Ev where
  t : Nat
  paths : List String
  rmap : String → JSVal

/-- Scheduler state: the pending set, the armed debounce deadline
(`syncTimeoutId`), the runtime's current value map, and the log of
flushes (time, actuator calls). -/
structure Sim where
  pending : List String
  deadline : Option Nat
  rmap : String → JSVal
  log : List (Nat × List ActCall)

/-- Model of `flushPush` (create-bridge 142-150) at time `tm`: drain the pending
set, clear the timer, push through `pushToExternal`. -/
def flushAt (cfg : EngineCfg) (s : Sim) (tm : Nat) : Sim :=
  { pending := [], deadline := none, rmap := s.rmap,
    log := s.log ++ [(tm, pushToExternal cfg s.rmap s.pending)] }

/-- Model of `schedulePush` (create-bridge 119-137) at time `tm`: accumulate into
the pending set; with a positive debounce re-arm the timer, otherwise
flush immediately. -/
def schedulePush (cfg : EngineCfg) (tm : Nat) (s : Sim) (ps : List String) : Sim :=
  let s2 : Sim := { s with pending := pathsUnion s.pending ps }
  if 0 < cfg.debounceMs then { s2 with deadline := some (tm + cfg.debounceMs) }
  else flushAt cfg s2 tm

/-- Fire an armed timer whose deadline has passed by time `tm` (the
callback of `setTimeout` runs before any later event). -/
def fireDue (cfg : EngineCfg) (s : Sim) (tm : Nat) : Sim :=
  match s.deadline with
  | some d => if d ≤ tm then flushAt cfg s d else s
  | none => s

/-- Process one runtime change notification. -/
def notifyStep (cfg : EngineCfg) (s : Sim) (e : Ev) : Sim :=
  let s1 := fireDue cfg s e.t
  let s2 : Sim := { s1 with rmap := e.rmap }
  schedulePush cfg e.t s2 e.paths

/-- After the last event, an armed timer fires at its deadline. -/
def drainFinal (cfg : EngineCfg) (s : Sim) : Sim :=
  match s.deadline with
  | some d => flushAt cfg s d
  | none => s

/-- Run the scheduler over a timeline of runtime notifications, starting
from the runtime map `m0`, idle scheduler state. -/
def runSim (cfg : EngineCfg) (m0 : String → JSVal) (evs : List Ev) : Sim :=
  drainFinal cfg (evs.foldl (notifyStep cfg) ⟨[], none, m0, []⟩)

/-- Adjacent-gap condition on a timeline: starting from time `t0`, every
event is no earlier than its predecessor and strictly within the window
`d` after it. -/
def gapsFrom (t0 d : Nat) : List Ev → Bool
  | [] => true
  | e :: rest => (decide (t0 ≤ e.t) && decide (e.t < t0 + d)) && gapsFrom e.t d rest

/-- Last event time of a timeline (default `t0`). -/
def lastT (t0 : Nat) (evs : List Ev) : Nat :=
  evs.foldl (fun _ e => e.t) t0

/-- Runtime map after the last event (default `m0`). -/
def lastMap (m0 : String → JSVal) (evs : List Ev) : String → JSVal :=
  evs.foldl (fun _ e => e.rmap) m0

/-- All paths notified on a timeline, as the pending set accumulates
them. -/
def collectPending (evs : List Ev) : List String :=
  evs.foldl (fun a e => pathsUnion a e.paths) []

/-! Section: Bridge operations and disposal (create-bridge 202-377)

The runtime and the adapter are external collaborators; they are
modelled as records of response functions the engine trusts
(`RuntimeModel`, `AdapterModel`).  Each bridge method becomes a pure
function; a thrown JS `Error` is an `Except.error` carrying the error's
message, while `execute` — which never throws — returns a `BResult`
value. -/

/-- A snapshot: the runtime's materialized `(data, state)` pair. -/
structure Snapshot where
  data : JSVal
  state : JSVal

/-- Outcome of `runtime.execute`: success, a failed `Result` with a
cause message, or a thrown exception. -/
inductive RunExecOutcome where
  | ok : RunExecOutcome
  | failure : String → RunExecOutcome
  | thrown : String → RunExecOutcome

/-- The runtime contract consumed by the engine, as trusted response
data: current values, the current snapshot, field policies, precondition
satisfaction flags, and the outcomes of `set`/`setMany`/`execute`
(`none` = ok; for `setMany` the reported message and offending path). -/
structure RuntimeModel where
  get : String → JSVal
  snapData : JSVal
  snapState : JSVal
  fieldPolicy : String → JSVal
  preconditions : String → List Bool
  setRes : String → JSVal → Option String
  setManyRes : List (String × JSVal) → Option (String × Option String)
  execRes : String → Option JSVal → RunExecOutcome
  snapshotAfterSetMany : List (String × JSVal) → Snapshot

/-- The adapter contract consumed by the engine. -/
structure AdapterModel where
  getData : String → JSVal
  getState : String → JSVal
  captureData : List (String × JSVal)
  captureState : List (String × JSVal)

/-- The engine's own state plus its collaborators.  `deadline` is the
armed debounce timer, `actLog` the actuator calls issued so far,
`listenerCount` the registered snapshot listeners. -/
structure BridgeState where
  isDisposed : Bool
  deadline : Option Nat
  pending : List String
  listenerCount : Nat
  runtime : RuntimeModel
  adapter : AdapterModel
  cfg : EngineCfg
  actLog : List ActCall

/-- Model of `BridgeError` (types.ts 184-190); the `cause` chain is reduced to
its message. -/
inductive BridgeErrorCode where
  | VALIDATION_ERROR | EXECUTION_ERROR | SYNC_ERROR | ADAPTER_ERROR | DISPOSED_ERROR

/-- A structured bridge error value. -/
structure BridgeError where
  code : BridgeErrorCode
  message : String
  path : Option String
  causeMsg : Option String

/-- Model of `Result<void, BridgeError>` as returned by `execute`. -/
inductive BResult where
  | ok : BResult
  | err : BridgeError → BResult

/-- The command vocabulary (types.ts 136-165); the optional
`description` field is never read by the engine and is omitted. -/
inductive Command where
  | setValue : String → JSVal → Command
  | setMany : List (String × JSVal) → Command
  | executeAction : String → Option JSVal → Command

/-- The adapter-subscription callback (create-bridge 76-88): for every
changed path, read it from the adapter (`getState` for `state.`-prefixed
paths, `getData` otherwise) and hand it to `runtime.set`.  The returned
list is the sequence of `runtime.set(path, value)` calls issued; a
disposed bridge issues none. -/
def onAdapterChange (disposed : Bool) (ad : AdapterModel) (changed : List String) :
    List (String × JSVal) :=
  if disposed then []
  else changed.map fun p =>
    (p, if strStartsWith p "state." then ad.getState p else ad.getData p)

/-- Model of `bridge.get` (create-bridge 354-357). -/
def bridgeGet (s : BridgeState) (p : String) : Except String JSVal :=
  if s.isDisposed then .error "Bridge is disposed"
  else .ok (s.runtime.get p)

/-- Model of `bridge.getFieldPolicy` (create-bridge 359-362); the policy value is
opaque to the engine. -/
def bridgeGetFieldPolicy (s : BridgeState) (p : String) : Except String JSVal :=
  if s.isDisposed then .error "Bridge is disposed"
  else .ok (s.runtime.fieldPolicy p)

/-- Model of `bridge.capture` (create-bridge 217-233): merge `captureData` and
`captureState` (their key sets are disjoint by prefix), apply them to the
runtime in one `setMany`, and return the resulting snapshot; validation
failures are only warned about. -/
def bridgeCapture (s : BridgeState) : Except String Snapshot :=
  if s.isDisposed then .error "Bridge is disposed"
  else
    let updates := s.adapter.captureData ++ s.adapter.captureState
    .ok (s.runtime.snapshotAfterSetMany updates)

/-- Model of `bridge.isActionAvailable` (create-bridge 364-368): every declared
precondition must be satisfied; the precondition records are reduced to
their `satisfied` flags. -/
def bridgeIsActionAvailable (s : BridgeState) (actionId : String) : Except String Bool :=
  if s.isDisposed then .error "Bridge is disposed"
  else .ok ((s.runtime.preconditions actionId).all fun b => b)

/-- Model of `bridge.subscribe` (create-bridge 370-376): register one listener
(the returned unsubscribe closure is not itself modelled). -/
def bridgeSubscribe (s : BridgeState) : Except String BridgeState :=
  if s.isDisposed then .error "Bridge is disposed"
  else .ok { s with listenerCount := s.listenerCount + 1 }

/-- Model of `bridge.execute` (create-bridge 235-295): a disposed bridge resolves
to a `DISPOSED_ERROR` result; otherwise the command dispatch translates
runtime failures into typed errors, and any exception thrown by the
runtime is caught and converted to an `EXECUTION_ERROR`.  The function is
total: `execute` never throws. -/
def bridgeExecute (s : BridgeState) (cmd : Command) : BResult :=
  if s.isDisposed then
    .err ⟨.DISPOSED_ERROR, "Bridge is disposed", none, none⟩
  else
    match cmd with
    | .setValue p v =>
      match s.runtime.setRes p v with
      | none => .ok
      | some m => .err ⟨.VALIDATION_ERROR, m, some p, none⟩
    | .setMany us =>
      match s.runtime.setManyRes us with
      | none => .ok
      | some (m, pth) => .err ⟨.VALIDATION_ERROR, m, pth, none⟩
    | .executeAction a i =>
      match s.runtime.execRes a i with
      | .ok => .ok
      | .failure m => .err ⟨.EXECUTION_ERROR, m, none, some m⟩
      | .thrown m => .err ⟨.EXECUTION_ERROR, m, none, some m⟩

/-- The paths `sync` recomputes (create-bridge 307-324): the top-level
keys of a truthy-object `snapshot.data` prefixed `data.`, then those of
`snapshot.state` prefixed `state.`.  `Object.keys` of an array yields its
index strings. -/
def jsKeys : JSVal → List String
  | .obj fs => fs.map fun f => f.1
  | .arr xs props => (List.range xs.length).map toString ++ props.map fun f => f.1
  | _ => []

/-- The full current path set computed by `sync`. -/
def syncPaths (r : RuntimeModel) : List String :=
  (if isObjLike r.snapData then (jsKeys r.snapData).map (fun k => "data." ++ k) else [])
    ++ (if isObjLike r.snapState then (jsKeys r.snapState).map (fun k => "state." ++ k) else [])

/-- Model of `bridge.sync` (create-bridge 297-328): throw if disposed; cancel any
pending debounce timer; recompute the full path set from the latest
snapshot and push it through `pushToExternal`.  The pending set is left
as is (the source does not clear it). -/
def bridgeSync (s : BridgeState) : Except String BridgeState :=
  if s.isDisposed then .error "Bridge is disposed"
  else
    .ok { s with deadline := none,
                 actLog := s.actLog ++ pushToExternal s.cfg s.runtime.get (syncPaths s.runtime) }

/-- Model of `bridge.dispose` (create-bridge 330-352): idempotent; cancels the
timer, detaches subscriptions, clears listeners and pending paths. -/
def bridgeDispose (s : BridgeState) : BridgeState :=
  if s.isDisposed then s
  else { s with isDisposed := true, deadline := none, pending := [], listenerCount := 0 }

/-! Section: Concrete instances used by witnesses and counterexamples -/

/-- A benign concrete runtime model. -/
def rt0 : RuntimeModel :=
  { get := fun _ => JSVal.undef
    snapData := JSVal.obj [("name", JSVal.str "John")]
    snapState := JSVal.obj [("loading", JSVal.bool false)]
    fieldPolicy := fun _ => JSVal.undef
    preconditions := fun _ => []
    setRes := fun _ _ => none
    setManyRes := fun _ => none
    execRes := fun _ _ => RunExecOutcome.ok
    snapshotAfterSetMany := fun _ => ⟨JSVal.obj [], JSVal.obj []⟩ }

/-- A concrete adapter model whose reads are distinguishable. -/
def ad0 : AdapterModel :=
  { getData := fun _ => JSVal.num 7
    getState := fun _ => JSVal.num 8
    captureData := []
    captureState := [] }

/-- A concrete engine configuration without batched actuator methods. -/
def cfg0 : EngineCfg := ⟨0, false, false⟩

/-- A live concrete bridge. -/
def bridge0 : BridgeState :=
  { isDisposed := false, deadline := none, pending := [], listenerCount := 0,
    runtime := rt0, adapter := ad0, cfg := cfg0, actLog := [] }

/-- Segment lists on which `getValueByPath` takes neither store section:
the empty path, or a first segment that is neither `data` nor `state`. -/
def getExempt : List String → Bool
  | [] => true
  | ns :: _ => !(decide (ns = "data") || decide (ns = "state"))

/-- Segment lists on which `setValueByPath` is a guaranteed no-op: fewer
than two segments, or a first segment that is neither `data` nor
`state`. -/
def setExempt : List String → Bool
  | [] => true
  | [_] => true
  | ns :: _ :: _ => !(decide (ns = "data") || decide (ns = "state"))

/-- A concrete store whose `data` section is a primitive. -/
def store0 : VanillaStore := ⟨JSVal.num 42, JSVal.null⟩

/-- The value produced by writing `"hi"` at `a[0].b` into `{}`. -/
def yW : JSVal := JSVal.obj [("a", JSVal.arr [JSVal.obj [("b", JSVal.str "hi")]] [])]

/-- A family of constant runtime maps, distinguishable by their value. -/
def mW (i : Int) : String → JSVal := fun _ => JSVal.num i

/-- A debounce-enabled configuration without batched actuator methods. -/
def cfgW : EngineCfg := ⟨100, false, false⟩

/-- Four rapid changes of the same path, 50ms apart, the runtime value
advancing each time (the spec's debounce example). -/
def evsW : List Ev :=
  [⟨0, ["data.x"], mW 1⟩, ⟨50, ["data.x"], mW 2⟩,
   ⟨100, ["data.x"], mW 3⟩, ⟨150, ["data.x"], mW 4⟩]

/-- A mixed-namespace path batch. -/
def pathsW : List String := ["data.a", "derived.zz", "state.b"]

/-! Section: Helper lemmas -/

theorem getNested_undef_any (rest : List String) :
    getNestedValue JSVal.undef rest = JSVal.undef := by
  cases rest <;> simp [getNestedValue, isNullish]

theorem lookup_setField (fs : List (String × JSVal)) (k : String) (v : JSVal) :
    lookupField (setField fs k v) k = some v := by
  induction fs with
  | nil => simp [setField, lookupField]
  | cons f rest ih =>
    obtain ⟨k2, w⟩ := f
    by_cases h : k2 = k
    · simp [setField, h, lookupField]
    · simp [setField, h, lookupField, ih]

theorem getD_pad_nil (i : Nat) (v : JSVal) :
    (listSetPad [] i v).getD i JSVal.undef = v := by
  induction i with
  | zero => rfl
  | succ n ih => simpa [listSetPad, List.getD] using ih

theorem getD_listSetPad (xs : List JSVal) (i : Nat) (v : JSVal) :
    (listSetPad xs i v).getD i JSVal.undef = v := by
  induction xs generalizing i with
  | nil => exact getD_pad_nil i v
  | cons x rest ih =>
    cases i with
    | zero => rfl
    | succ n => simpa [listSetPad, List.getD] using ih n

theorem jsSetIndex_read (x : JSVal) (k : String) (v y : JSVal)
    (h : jsSetIndex x k v = some y) : jsIndex y k = v := by
  cases x with
  | obj fs =>
    simp only [jsSetIndex, Option.some.injEq] at h
    rw [← h]
    simp [jsIndex, lookup_setField]
  | arr xs props =>
    simp only [jsSetIndex] at h
    cases hd : digitsToNat k with
    | none =>
      simp only [hd, Option.some.injEq] at h
      rw [← h]
      simp [jsIndex, hd, lookup_setField]
    | some i =>
      simp only [hd, Option.some.injEq] at h
      rw [← h]
      simp only [jsIndex, hd]
      exact getD_listSetPad xs i v
  | undef => simp [jsSetIndex] at h
  | null => simp [jsSetIndex] at h
  | bool b => simp [jsSetIndex] at h
  | num n => simp [jsSetIndex] at h
  | str s => simp [jsSetIndex] at h

theorem jsSetIndex_notNullish (x : JSVal) (k : String) (v y : JSVal)
    (h : jsSetIndex x k v = some y) : isNullish y = false := by
  cases x with
  | obj fs =>
    simp only [jsSetIndex, Option.some.injEq] at h
    rw [← h]; rfl
  | arr xs props =>
    simp only [jsSetIndex] at h
    cases hd : digitsToNat k with
    | none =>
      simp only [hd, Option.some.injEq] at h
      rw [← h]; rfl
    | some i =>
      simp only [hd, Option.some.injEq] at h
      rw [← h]; rfl
  | undef => simp [jsSetIndex] at h
  | null => simp [jsSetIndex] at h
  | bool b => simp [jsSetIndex] at h
  | num n => simp [jsSetIndex] at h
  | str s => simp [jsSetIndex] at h

theorem setGo_roundtrip : ∀ (segs : List String), segs ≠ [] →
    ∀ (x v y : JSVal), setNestedGo x segs v = some y →
    getNestedValue y segs = v := by
  intro segs
  induction segs with
  | nil => intro h; exact absurd rfl h
  | cons seg rest ih =>
    intro _ x v y hset
    cases rest with
    | nil =>
      have hx : jsSetIndex x seg v = some y := hset
      have h1 := jsSetIndex_read x seg v y hx
      have h2 := jsSetIndex_notNullish x seg v y hx
      simp [getNestedValue, h2, h1]
    | cons nxt rest2 =>
      have hset2 : (match setNestedGo (childFor x seg nxt) (nxt :: rest2) v with
          | some child2 => jsSetIndex x seg child2
          | none => none) = some y := hset
      cases hc : setNestedGo (childFor x seg nxt) (nxt :: rest2) v with
      | none => simp [hc] at hset2
      | some child2 =>
        simp only [hc] at hset2
        have h1 := jsSetIndex_read x seg child2 y hset2
        have h2 := jsSetIndex_notNullish x seg child2 y hset2
        have h3 := ih (List.cons_ne_nil nxt rest2) (childFor x seg nxt) v child2 hc
        have hstep : getNestedValue y (seg :: nxt :: rest2)
            = getNestedValue (jsIndex y seg) (nxt :: rest2) := by
          simp [getNestedValue, h2]
        rw [hstep, h1]
        exact h3

/-! Section: C6 — path codec round trip -/

/-- C6 counterexample: the claim's round trip fails when the walk meets a
non-nullish primitive.  At `x = {a: 5}` and path `"a.b"` (a valid path
with a non-empty segment sequence), `setNestedValue` raises a strict-mode
`TypeError` (modelled `none`) — `current` becomes the primitive `5` and
the assignment `current["b"] = v` throws — so no written object exists,
and reading the path from `x` yields `undefined`, not the written value. -/
theorem c6_roundtrip_cex :
    parsePath "a.b" = ["a", "b"] ∧
    setNestedValue (JSVal.obj [("a", JSVal.num 5)]) ["a", "b"] (JSVal.num 1) = none ∧
    getNestedValue (JSVal.obj [("a", JSVal.num 5)]) ["a", "b"] ≠ JSVal.num 1 :=
  ⟨rfl, rfl, fun h => JSVal.noConfusion h⟩

/-- C6 (amended): for every path string whose parsed segment sequence is
non-empty, whenever the nested write succeeds — returns a result instead
of throwing a strict-mode `TypeError` — reading the same segments from
the written value returns the written value; and the empty-segment write
is a no-op that leaves the root unchanged.  (The write can throw: see
the counterexample, where an assignment target is a non-nullish
primitive.  A non-numeric key on an array is not such a case — it
succeeds as an expando property and round-trips.) -/
theorem c6_roundtrip_amended (path : String) (x v y : JSVal)
    (h1 : parsePath path ≠ [])
    (h2 : setNestedValue x (parsePath path) v = some y) :
    getNestedValue y (parsePath path) = v ∧
    setNestedValue x [] v = some x := by
  refine ⟨?_, rfl⟩
  cases hp : parsePath path with
  | nil => exact absurd hp h1
  | cons a l =>
    rw [hp] at h2
    have h3 : setNestedGo x (a :: l) v = some y := h2
    exact setGo_roundtrip (a :: l) (List.cons_ne_nil a l) x v y h3

/-- C6 witness: the amended round trip evaluated at `{}`, path
`"a[0].b"`, value `"hi"`. -/
theorem c6_roundtrip_witness :
    getNestedValue yW (parsePath "a[0].b") = JSVal.str "hi" ∧
    setNestedValue (JSVal.obj []) [] (JSVal.str "hi") = some (JSVal.obj []) :=
  c6_roundtrip_amended "a[0].b" (JSVal.obj []) (JSVal.str "hi") yW
    (by decide) rfl

/-! Section: C7 — totality of `getNestedValue` -/

/-- C7 counterexample: the walk does not return `undefined` on every
non-object intermediate.  `getNestedValue` only guards nullish values
and otherwise indexes into the current value, so the string intermediate
`"John"` in `{name: "John"}` exposes its `length` property and the walk
`["name", "length"]` returns `4`, not `undefined`. -/
theorem c7_getNested_cex :
    getNestedValue (JSVal.obj [("name", JSVal.str "John")]) ["name", "length"]
      = JSVal.num 4 ∧
    getNestedValue (JSVal.obj [("name", JSVal.str "John")]) ["name", "length"]
      ≠ JSVal.undef :=
  ⟨rfl, fun h => JSVal.noConfusion h⟩

/-- C7 (amended): `getNestedValue` is a total function (it never throws,
by construction of the embedding); the empty segment sequence returns
the root itself; a nullish intermediate — the only kind the code guards
— yields `undefined` the instant it is met; a missing final key on an
object yields `undefined`; but a non-object intermediate is indexed like
any other value and can produce a result, e.g. a string intermediate
exposes its `length`. -/
theorem c7_getNested_amended (x y : JSVal) (seg : String) (rest : List String)
    (fs : List (String × JSVal)) (k s : String)
    (h2 : isNullish y = true) (h3 : lookupField fs k = none) :
    getNestedValue x [] = x ∧
    getNestedValue y (seg :: rest) = JSVal.undef ∧
    getNestedValue (JSVal.obj fs) [k] = JSVal.undef ∧
    getNestedValue (JSVal.str s) ["length"] = JSVal.num s.length := by
  refine ⟨rfl, ?_, ?_, ?_⟩
  · cases y with
    | undef => simp [getNestedValue, isNullish]
    | null => simp [getNestedValue, isNullish]
    | bool b => simp [isNullish] at h2
    | num n => simp [isNullish] at h2
    | str s2 => simp [isNullish] at h2
    | obj fs2 => simp [isNullish] at h2
    | arr xs props => simp [isNullish] at h2
  · simp [getNestedValue, isNullish, jsIndex, h3]
  · simp [getNestedValue, isNullish, jsIndex]

/-- C7 witness: the amended behaviour evaluated at a nullish
intermediate, a missing key `"z"` of `{a: 1}`, and the string `"John"`. -/
theorem c7_getNested_amended_witness :
    getNestedValue (JSVal.obj [("a", JSVal.num 1)]) [] = JSVal.obj [("a", JSVal.num 1)] ∧
    getNestedValue JSVal.null ("a" :: ["b"]) = JSVal.undef ∧
    getNestedValue (JSVal.obj [("a", JSVal.num 1)]) ["z"] = JSVal.undef ∧
    getNestedValue (JSVal.str "John") ["length"] = JSVal.num (String.length "John") :=
  c7_getNested_amended (JSVal.obj [("a", JSVal.num 1)]) JSVal.null "a" ["b"]
    [("a", JSVal.num 1)] "z" "John" rfl rfl

/-! Section: C8 — flattening -/

/-- C8 counterexample: `undefined` is a non-object value, yet
`flattenObject(undefined, "data")` is the empty mapping, not the
single-entry mapping `{"data": undefined}`. -/
theorem c8_flatten_cex :
    flattenObject JSVal.undef "data" = [] ∧
    flattenObject JSVal.undef "data" ≠ [("data", JSVal.undef)] :=
  ⟨rfl, fun h => List.noConfusion h⟩

/-- C8 (amended): a nullish top-level value produces the empty mapping;
a primitive (non-object, non-nullish) value produces the single-entry
mapping; an array is stored whole under its prefix, never expanded; a
plain-object field recurses with the extended prefix; and every
non-plain-object field value (arrays, primitives, and nested nullish
values) becomes one entry under the extended prefix. -/
theorem c8_flatten_amended (pre k : String) (v w : JSVal) (xs : List JSVal)
    (props fs fs2 : List (String × JSVal))
    (hv : isPrimValue v = true) (hw : isObjVal w = false) :
    flattenObject JSVal.undef pre = [] ∧
    flattenObject JSVal.null pre = [] ∧
    flattenObject v pre = [(pre, v)] ∧
    flattenObject (JSVal.arr xs props) pre = [(pre, JSVal.arr xs props)] ∧
    flattenObject (JSVal.obj ((k, JSVal.obj fs2) :: fs)) pre
      = flattenObject (JSVal.obj fs2) (pre ++ "." ++ k) ++ flattenObject (JSVal.obj fs) pre ∧
    flattenObject (JSVal.obj ((k, w) :: fs)) pre
      = (pre ++ "." ++ k, w) :: flattenObject (JSVal.obj fs) pre := by
  refine ⟨rfl, rfl, ?_, rfl, ?_, ?_⟩
  · cases v <;> simp_all [isPrimValue, flattenObject]
  · simp [flattenObject, flattenFields]
  · cases w <;> simp_all [isObjVal, flattenObject, flattenFields]

/-- C8 witness: the amended flattening behaviour evaluated at concrete
values (the spec's `{items: [1,2,3]}` sequence leaf among them). -/
theorem c8_flatten_witness :
    flattenObject JSVal.undef "data" = [] ∧
    flattenObject JSVal.null "data" = [] ∧
    flattenObject (JSVal.num 3) "data" = [("data", JSVal.num 3)] ∧
    flattenObject (JSVal.arr [JSVal.num 1, JSVal.num 2, JSVal.num 3] []) "data"
      = [("data", JSVal.arr [JSVal.num 1, JSVal.num 2, JSVal.num 3] [])] ∧
    flattenObject (JSVal.obj [("user", JSVal.obj [("y", JSVal.num 0)]), ("x", JSVal.num 9)]) "data"
      = flattenObject (JSVal.obj [("y", JSVal.num 0)]) ("data" ++ "." ++ "user")
        ++ flattenObject (JSVal.obj [("x", JSVal.num 9)]) "data" ∧
    flattenObject (JSVal.obj [("user", JSVal.arr [JSVal.num 1] []), ("x", JSVal.num 9)]) "data"
      = ("data" ++ "." ++ "user", JSVal.arr [JSVal.num 1] [])
        :: flattenObject (JSVal.obj [("x", JSVal.num 9)]) "data" :=
  c8_flatten_amended "data" "user" (JSVal.num 3) (JSVal.arr [JSVal.num 1] [])
    [JSVal.num 1, JSVal.num 2, JSVal.num 3] [] [("x", JSVal.num 9)] [("y", JSVal.num 0)]
    rfl rfl

/-! Section: C9 — vanilla store addressing guard -/

/-- C9 counterexample: the path `"data"` parses to a single segment, so
`setValueByPath` ignores it, but `getValueByPath` does not return
`undefined` on it — it returns the whole `data` section of the store. -/
theorem c9_store_guard_cex :
    parsePath "data" = ["data"] ∧
    (parsePath "data").length < 2 ∧
    getValueByPath store0 "data" = JSVal.num 42 ∧
    getValueByPath store0 "data" ≠ JSVal.undef :=
  ⟨rfl, by decide, rfl, fun h => JSVal.noConfusion h⟩

/-- C9 (amended): `setValueByPath` leaves the store unchanged whenever
the parsed path has fewer than two segments or a first segment other
than `data`/`state`; `getValueByPath` returns `undefined` for the empty
path and for any path whose first segment is neither `data` nor `state`
(a one-segment `"data"`/`"state"` path, by contrast, returns the whole
section). -/
theorem c9_store_guard_amended (store : VanillaStore) (p q : String) (v : JSVal)
    (hs : setExempt (parsePath p) = true)
    (hg : getExempt (parsePath q) = true) :
    setValueByPath store p v = some store ∧
    getValueByPath store q = JSVal.undef := by
  constructor
  · simp only [setValueByPath]
    cases hp : parsePath p with
    | nil => rfl
    | cons ns rest =>
      cases rest with
      | nil => rfl
      | cons b t =>
        rw [hp] at hs
        simp only [setExempt, Bool.not_eq_true', Bool.or_eq_false_iff,
          decide_eq_false_iff_not] at hs
        simp [hs.1, hs.2]
  · simp only [getValueByPath]
    cases hq : parsePath q with
    | nil => rfl
    | cons ns rest =>
      rw [hq] at hg
      simp only [getExempt, Bool.not_eq_true', Bool.or_eq_false_iff,
        decide_eq_false_iff_not] at hg
      simp [hg.1, hg.2]

/-- C9 witness: the amended guard evaluated at the one-segment path
`"data"` (write side) and the path `"derived.x"` (both sides). -/
theorem c9_store_guard_witness :
    setValueByPath store0 "data" (JSVal.num 1) = some store0 ∧
    getValueByPath store0 "derived.x" = JSVal.undef :=
  c9_store_guard_amended store0 "data" "derived.x" (JSVal.num 1) (by decide) (by decide)

/-! Section: Scheduler lemmas -/

theorem foldl_debounce (cfg : EngineCfg) (hd : 0 < cfg.debounceMs) :
    ∀ (evs : List Ev) (s : Sim) (t0 : Nat),
      s.deadline = some (t0 + cfg.debounceMs) →
      gapsFrom t0 cfg.debounceMs evs = true →
      evs.foldl (notifyStep cfg) s =
        { pending := evs.foldl (fun a e => pathsUnion a e.paths) s.pending
          deadline := some (lastT t0 evs + cfg.debounceMs)
          rmap := lastMap s.rmap evs
          log := s.log } := by
  intro evs
  induction evs with
  | nil =>
    intro s t0 hdl _
    simp only [List.foldl_nil, lastT, lastMap]
    rw [← hdl]
  | cons e rest ih =>
    intro s t0 hdl hg
    simp only [gapsFrom, Bool.and_eq_true, decide_eq_true_eq] at hg
    obtain ⟨⟨hle, hlt⟩, hg2⟩ := hg
    have hnot : ¬ (t0 + cfg.debounceMs ≤ e.t) := by omega
    have hstep : notifyStep cfg s e =
        { pending := pathsUnion s.pending e.paths
          deadline := some (e.t + cfg.debounceMs)
          rmap := e.rmap
          log := s.log } := by
      simp [notifyStep, fireDue, schedulePush, hdl, hnot, hd]
    rw [List.foldl_cons, hstep]
    rw [ih { pending := pathsUnion s.pending e.paths
             deadline := some (e.t + cfg.debounceMs)
             rmap := e.rmap
             log := s.log } e.t rfl hg2]
    simp [lastT, lastMap]

/-- With a positive debounce and every gap shorter than the window, a
timeline flushes exactly once: at the last notification time plus the
debounce window, with the union of all notified paths, reading the
runtime map as of the last notification. -/
theorem runSim_single_flush (cfg : EngineCfg) (m0 : String → JSVal)
    (e : Ev) (rest : List Ev) (hd : 0 < cfg.debounceMs)
    (hg : gapsFrom e.t cfg.debounceMs rest = true) :
    (runSim cfg m0 (e :: rest)).log =
      [(lastT e.t rest + cfg.debounceMs,
        pushToExternal cfg (lastMap e.rmap rest) (collectPending (e :: rest)))] := by
  unfold runSim
  rw [List.foldl_cons]
  have hstep : notifyStep cfg ⟨[], none, m0, []⟩ e =
      { pending := pathsUnion [] e.paths
        deadline := some (e.t + cfg.debounceMs)
        rmap := e.rmap
        log := [] } := by
    simp [notifyStep, fireDue, schedulePush, hd]
  rw [hstep]
  rw [foldl_debounce cfg hd rest _ e.t rfl hg]
  simp [drainFinal, flushAt, collectPending]

theorem mem_partition_data : ∀ (paths : List String) (q : String),
    q ∈ (partitionPaths paths).1 → strStartsWith q "data." = true := by
  intro paths
  induction paths with
  | nil => intro q h; simp [partitionPaths] at h
  | cons p rest ih =>
    intro q h
    simp only [partitionPaths] at h
    by_cases h1 : strStartsWith p "state." = true
    · rw [if_pos h1] at h
      exact ih q h
    · rw [if_neg h1] at h
      by_cases h2 : strStartsWith p "data." = true
      · rw [if_pos h2] at h
        rcases List.mem_cons.mp h with hq | h3
        · rw [hq]; exact h2
        · exact ih q h3
      · rw [if_neg h2] at h
        exact ih q h

theorem mem_partition_state : ∀ (paths : List String) (q : String),
    q ∈ (partitionPaths paths).2 → strStartsWith q "state." = true := by
  intro paths
  induction paths with
  | nil => intro q h; simp [partitionPaths] at h
  | cons p rest ih =>
    intro q h
    simp only [partitionPaths] at h
    by_cases h1 : strStartsWith p "state." = true
    · rw [if_pos h1] at h
      rcases List.mem_cons.mp h with hq | h3
      · rw [hq]; exact h1
      · exact ih q h3
    · rw [if_neg h1] at h
      by_cases h2 : strStartsWith p "data." = true
      · rw [if_pos h2] at h
        exact ih q h
      · rw [if_neg h2] at h
        exact ih q h

theorem mentions_dataCalls (cfg : EngineCfg) (g : String → JSVal)
    (dps : List String) (c : ActCall) (p : String)
    (hc : c ∈ dataCalls cfg g dps) (hm : mentionsPath c p = true) : p ∈ dps := by
  unfold dataCalls at hc
  by_cases he : dps.isEmpty = true
  · rw [if_pos he] at hc
    simp at hc
  · rw [if_neg he] at hc
    by_cases hb : cfg.hasSetManyData = true
    · rw [if_pos hb] at hc
      rcases List.mem_singleton.mp hc with rfl
      simp only [mentionsPath, List.any_eq_true] at hm
      obtain ⟨u, hu, hup⟩ := hm
      obtain ⟨q, hq, hqu⟩ := List.mem_map.mp hu
      rw [← hqu] at hup
      simp only [beq_iff_eq] at hup
      rw [← hup]
      exact hq
    · rw [if_neg hb] at hc
      obtain ⟨q, hq, hqc⟩ := List.mem_map.mp hc
      rw [← hqc] at hm
      simp only [mentionsPath, beq_iff_eq] at hm
      rw [← hm]
      exact hq

theorem mentions_stateCalls (cfg : EngineCfg) (g : String → JSVal)
    (sps : List String) (c : ActCall) (p : String)
    (hc : c ∈ stateCalls cfg g sps) (hm : mentionsPath c p = true) : p ∈ sps := by
  unfold stateCalls at hc
  by_cases he : sps.isEmpty = true
  · rw [if_pos he] at hc
    simp at hc
  · rw [if_neg he] at hc
    by_cases hb : cfg.hasSetManyState = true
    · rw [if_pos hb] at hc
      rcases List.mem_singleton.mp hc with rfl
      simp only [mentionsPath, List.any_eq_true] at hm
      obtain ⟨u, hu, hup⟩ := hm
      obtain ⟨q, hq, hqu⟩ := List.mem_map.mp hu
      rw [← hqu] at hup
      simp only [beq_iff_eq] at hup
      rw [← hup]
      exact hq
    · rw [if_neg hb] at hc
      obtain ⟨q, hq, hqc⟩ := List.mem_map.mp hc
      rw [← hqc] at hm
      simp only [mentionsPath, beq_iff_eq] at hm
      rw [← hm]
      exact hq

/-- C2: with `debounceMs > 0`, every batch handed to the push scheduler
re-arms the timer, so a timeline `e :: rest` of runtime notifications in
which every gap is shorter than `debounceMs` produces exactly one flush;
it happens at the last notification time plus `debounceMs` (i.e. only
after a quiescence window with no further notifications), and it carries
only the final value per path: the pushed values are read from the
runtime map in force after the last notification, over the deduplicated
union of all notified paths. -/
theorem c2_debounce_coalescing (cfg : EngineCfg) (m0 : String → JSVal)
    (e : Ev) (rest : List Ev) (hd : 0 < cfg.debounceMs)
    (hg : gapsFrom e.t cfg.debounceMs rest = true) :
    (runSim cfg m0 (e :: rest)).log =
      [(lastT e.t rest + cfg.debounceMs,
        pushToExternal cfg (lastMap e.rmap rest) (collectPending (e :: rest)))] :=
  runSim_single_flush cfg m0 e rest hd hg

/-- C2 witness: the spec's example — `debounceMs = 100`, four rapid
changes of `data.x` 50ms apart — yields exactly one flush, at 250
(100ms after the last change), pushing the final runtime map. -/
theorem c2_debounce_coalescing_witness :
    (runSim cfgW (mW 0) evsW).log = [(250, pushToExternal cfgW (mW 4) ["data.x"])] :=
  c2_debounce_coalescing cfgW (mW 0) ⟨0, ["data.x"], mW 1⟩
    [⟨50, ["data.x"], mW 2⟩, ⟨100, ["data.x"], mW 3⟩, ⟨150, ["data.x"], mW 4⟩]
    (by decide) (by decide)

/-! Section: C3 — flush freshness and batch preference -/

/-- C4 counterexample: derived paths are not pull-exempt.  On a live
bridge, an adapter change notification for `derived.x` makes the pull
wiring issue a `runtime.set("derived.x", adapter.getData("derived.x"))`
call — the list of issued runtime writes is non-empty, so a value is
handed to the runtime for a derived path. -/
theorem c4_derived_cex :
    onAdapterChange false ad0 ["derived.x"] = [("derived.x", JSVal.num 7)] ∧
    onAdapterChange false ad0 ["derived.x"] ≠ [] :=
  ⟨rfl, fun h => List.noConfusion h⟩

/-- C4 (amended): a path whose first segment is neither `data` nor
`state` is push-exempt — no flush emits any actuator call writing it —
but not pull-exempt: an adapter notification for such a path (read via
`getData`, since only `state.`-prefixed paths use `getState`) is
forwarded to `runtime.set` with the adapter's value. -/
theorem c4_derived_amended (cfg : EngineCfg) (g : String → JSVal)
    (paths : List String) (p p2 : String) (ad : AdapterModel) (c : ActCall)
    (h1 : strStartsWith p "data." = false) (h2 : strStartsWith p "state." = false)
    (hc : c ∈ pushToExternal cfg g paths)
    (h3 : strStartsWith p2 "state." = false) :
    mentionsPath c p = false ∧
    onAdapterChange false ad [p2] = [(p2, ad.getData p2)] := by
  constructor
  · cases hm : mentionsPath c p with
    | false => rfl
    | true =>
      exfalso
      simp only [pushToExternal] at hc
      rcases List.mem_append.mp hc with hdc | hsc
      · have hp := mem_partition_data paths p (mentions_dataCalls cfg g _ c p hdc hm)
        rw [h1] at hp
        exact Bool.noConfusion hp
      · have hp := mem_partition_state paths p (mentions_stateCalls cfg g _ c p hsc hm)
        rw [h2] at hp
        exact Bool.noConfusion hp
  · simp [onAdapterChange, h3]

/-- C4 witness: the amended behaviour at the concrete flush of `pathsW`
(no call of it writes `derived.zz`) and a concrete pull notification for
`derived.q`. -/
theorem c4_derived_witness :
    mentionsPath (ActCall.setData "data.a" (JSVal.num 9)) "derived.zz" = false ∧
    onAdapterChange false ad0 ["derived.q"] = [("derived.q", ad0.getData "derived.q")] :=
  c4_derived_amended cfg0 (mW 9) pathsW "derived.zz" "derived.q" ad0
    (ActCall.setData "data.a" (JSVal.num 9)) (by decide) (by decide)
    (by
      rw [show pushToExternal cfg0 (mW 9) pathsW
          = [ActCall.setData "data.a" (JSVal.num 9),
             ActCall.setState "state.b" (JSVal.num 9)] from rfl]
      exact List.mem_cons_self _ _)
    (by decide)

/-! Section: C1 — two-tier post-disposal failure policy -/

/-- C1: on one and the same disposed bridge, the hard-fail tier —
`get`, `capture`, `sync`, `getFieldPolicy` — throws an error identifying
the bridge as disposed, while `execute` never throws (it is a total
function into `BResult`) and resolves to a `DISPOSED_ERROR` error result,
for every command. -/
theorem c1_post_disposal_two_tier (s : BridgeState) (p q : String) (cmd : Command)
    (h : s.isDisposed = true) :
    bridgeGet s p = Except.error "Bridge is disposed" ∧
    bridgeCapture s = Except.error "Bridge is disposed" ∧
    bridgeSync s = Except.error "Bridge is disposed" ∧
    bridgeGetFieldPolicy s q = Except.error "Bridge is disposed" ∧
    bridgeExecute s cmd
      = BResult.err ⟨BridgeErrorCode.DISPOSED_ERROR, "Bridge is disposed", none, none⟩ := by
  refine ⟨?_, ?_, ?_, ?_, ?_⟩ <;>
    simp [bridgeGet, bridgeCapture, bridgeSync, bridgeGetFieldPolicy, bridgeExecute, h]

/-- C1 witness: the two-tier policy evaluated on the concrete disposed
bridge obtained by disposing `bridge0`. -/
theorem c1_post_disposal_witness :
    bridgeGet (bridgeDispose bridge0) "data.name" = Except.error "Bridge is disposed" ∧
    bridgeCapture (bridgeDispose bridge0) = Except.error "Bridge is disposed" ∧
    bridgeSync (bridgeDispose bridge0) = Except.error "Bridge is disposed" ∧
    bridgeGetFieldPolicy (bridgeDispose bridge0) "data.age" = Except.error "Bridge is disposed" ∧
    bridgeExecute (bridgeDispose bridge0) (Command.setValue "data.name" (JSVal.str "John"))
      = BResult.err ⟨BridgeErrorCode.DISPOSED_ERROR, "Bridge is disposed", none, none⟩ :=
  c1_post_disposal_two_tier (bridgeDispose bridge0) "data.name" "data.age"
    (Command.setValue "data.name" (JSVal.str "John")) rfl

/-! Section: C10 — implicit widening of the hard-fail tier -/

/-- C10: after disposal, `subscribe` and `isActionAvailable` also throw
the error identifying the bridge as disposed, although the spec's
hard-fail tier names only `get`, `capture`, `sync`, `getFieldPolicy`. -/
theorem c10_widened_hard_fail (s : BridgeState) (a : String)
    (h : s.isDisposed = true) :
    bridgeSubscribe s = Except.error "Bridge is disposed" ∧
    bridgeIsActionAvailable s a = Except.error "Bridge is disposed" := by
  constructor <;> simp [bridgeSubscribe, bridgeIsActionAvailable, h]

/-- C10 witness: evaluated on the disposed `bridge0`. -/
theorem c10_widened_hard_fail_witness :
    bridgeSubscribe (bridgeDispose bridge0) = Except.error "Bridge is disposed" ∧
    bridgeIsActionAvailable (bridgeDispose bridge0) "submit"
      = Except.error "Bridge is disposed" :=
  c10_widened_hard_fail (bridgeDispose bridge0) "submit" rfl

/-! Section: C5 — `sync()` forced flush -/

/-- C5: on a non-disposed bridge, `sync()` cancels any armed debounce
timer (`deadline := none`), recomputes the full current `data.*` and
`state.*` path set from the latest runtime snapshot (`syncPaths`), and
pushes it through the same `pushToExternal` codepath the automatic flush
uses.  The second conjunct replaces the pending set by an arbitrary one
`q` and obtains the very same pushed calls: the recomputation reads the
snapshot, not the recently-changed or pending paths. -/
theorem c5_sync_forced_flush (s : BridgeState) (q : List String)
    (h : s.isDisposed = false) :
    bridgeSync s = Except.ok { s with
        deadline := none
        actLog := s.actLog ++ pushToExternal s.cfg s.runtime.get (syncPaths s.runtime) } ∧
    bridgeSync { s with pending := q } = Except.ok { s with
        pending := q
        deadline := none
        actLog := s.actLog ++ pushToExternal s.cfg s.runtime.get (syncPaths s.runtime) } := by
  constructor <;> simp [bridgeSync, h]

/-- C5 witness: `sync` on the live `bridge0` (whose runtime snapshot has
one data key and one state key), with the pending set replaced by
`["data.zz"]` in the second conjunct. -/
theorem c5_sync_forced_flush_witness :
    bridgeSync bridge0 = Except.ok { bridge0 with
        deadline := none
        actLog := bridge0.actLog
          ++ pushToExternal bridge0.cfg bridge0.runtime.get (syncPaths bridge0.runtime) } ∧
    bridgeSync { bridge0 with pending := ["data.zz"] }
      = Except.ok { bridge0 with
        pending := ["data.zz"]
        deadline := none
        actLog := bridge0.actLog
          ++ pushToExternal bridge0.cfg bridge0.runtime.get (syncPaths bridge0.runtime) } :=
  c5_sync_forced_flush bridge0 ["data.zz"] rfl

end MBridge
